import Mathlib

/-!
Shallow embedding of `governance/data_adapter.py` (the DataAdapter layer of
the energypro data framework): Python/BSON values, the `MongoDBAdapter`
methods `connect`, `health_check`, `bulk_write`, `mask_field`, `get_schema`,
and the module-level factory `get_adapter`.

Python exceptions are modelled by the type `PyErr`; a method that can raise
returns `Except PyErr _`.  External backend effects (the pymongo client) are
modelled by explicit parameters and by recording the operations the method
issues.  Python `set` iteration order (used by `list(types)[0]` in
`get_schema`) is modelled by an explicit `setOrder` parameter constrained to
permute its input.
-/

/-- A Python/BSON value as it occurs in this adapter layer.  Floats carry a
rational (no float arithmetic happens anywhere in the module; only the type
tag and truthiness of a float are ever inspected). -/
inductive Value where
  | vBool : Bool → Value
  | vInt : Int → Value
  | vFloat : Rat → Value
  | vStr : String → Value
  | vObj : List (String × Value) → Value
  | vArr : List Value → Value
  | vObjectId : Nat → Value
  | vNone : Value

/-- A document / Python dict: an association list with string keys. -/
abbrev Doc : Type := List (String × Value)

/-- `doc.get(k)` / `k in doc` combined: the value stored at key `k`. -/
def getKey (k : String) (d : Doc) : Option Value :=
  (d.find? (fun p => p.1 = k)).map (fun p => p.2)

/-- Python truthiness (`bool(v)`) for the modelled values. -/
def Value.truthy : Value → Bool
  | .vBool b => b
  | .vInt n => decide (n ≠ 0)
  | .vFloat q => decide (q ≠ 0)
  | .vStr s => decide (s ≠ "")
  | .vObj l => !l.isEmpty
  | .vArr l => !l.isEmpty
  | .vObjectId _ => true
  | .vNone => false

/-- A Python exception: either a `ValueError(msg)` (the only exception class
the module itself constructs) or an arbitrary raised exception tagged with
its class name. -/
inductive PyErr where
  | valueError (msg : String)
  | raised (cls : String) (msg : String)
deriving DecidableEq

/-! ## MongoDBAdapter state and connection lifecycle -/

/-- The mutable fields of a `MongoDBAdapter` instance.  The pymongo client
and database handles are identified by the data that determines them: the
connection string for the client and the database name for the db handle;
`none` models Python `None` (the state set by `__init__`). -/
structure MongoDBAdapter where
  client : Option String
  db : Option String
  connection_string : Option String
deriving DecidableEq

/-- `MongoDBAdapter.__init__`: every field is `None`; no I/O happens. -/
def MongoDBAdapter.init : MongoDBAdapter := ⟨none, none, none⟩

/-- Python `str.split(sep)` for a one-character separator, on the character
list of the string: `"a/b/".split('/') == ['a','b','']`, `"".split('/') ==
['']`. -/
def splitChar (c : Char) : List Char → List (List Char)
  | [] => [[]]
  | x :: xs =>
    match splitChar c xs with
    | [] => [[]]
    | y :: ys => if x = c then [] :: y :: ys else (x :: y) :: ys

/-- `connection_string.split('/')[-1].split('?')[0]` from `connect` (both
separators are single characters). -/
def dbNameOf (cs : String) : String :=
  ⟨(splitChar '?' ((splitChar '/' cs.data).getLastD [])).headD []⟩

/-- `MongoDBAdapter.connect`.  `self.client` is assigned before the database
name is checked, so on the `ValueError` path the client field has already
been overwritten; the `except` clause logs and re-raises, which is
observationally the raise itself.  Returns the post-call state together with
the normal/exceptional outcome. -/
def MongoDBAdapter.connect (self : MongoDBAdapter) (cs : String) :
    MongoDBAdapter × Except PyErr Unit :=
  let self1 : MongoDBAdapter := { self with client := some cs }
  let dbName := dbNameOf cs
  if dbName = "" then
    (self1, .error (.valueError "Database name not found in connection string"))
  else
    ({ client := some cs, db := some dbName, connection_string := some cs }, .ok ())

/-- `MongoDBAdapter.health_check`, body of the `try` block:
`self.db.client.admin.command('ping')`.  When `self.db` is `None` the
attribute access raises `AttributeError`; otherwise the ping is the abstract
backend probe `ping` applied to the database handle. -/
def healthCheckBody (self : MongoDBAdapter) (ping : String → Except PyErr Unit) :
    Except PyErr Bool :=
  match self.db with
  | none => .error (.raised "AttributeError" "NoneType object has no attribute client")
  | some d =>
    match ping d with
    | .ok _ => .ok true
    | .error e => .error e

/-- `MongoDBAdapter.health_check`: the `try`/`except Exception` wrapper
converts any exception from the body into the return value `False`. -/
def MongoDBAdapter.health_check (self : MongoDBAdapter)
    (ping : String → Except PyErr Unit) : Except PyErr Bool :=
  match healthCheckBody self ping with
  | .ok b => .ok b
  | .error _ => .ok false

/-! ## Factory `get_adapter` -/

/-- The `PostgreSQLAdapter.__init__` state: `connection` and `cursor`, both
`None`. -/
structure PostgreSQLAdapter where
  connection : Option String
  cursor : Option String
deriving DecidableEq

/-- A constructed adapter instance, one variant per concrete class the
factory can instantiate. -/
inductive AdapterInstance where
  | mongoDB (a : MongoDBAdapter)
  | postgreSQL (a : PostgreSQLAdapter)
deriving DecidableEq

/-- The `adapters` dict of `get_adapter`: lower-cased backend identifier to
zero-argument constructor. -/
def adapters : List (String × (Unit → AdapterInstance)) :=
  [("mongodb", fun _ => .mongoDB ⟨none, none, none⟩),
   ("postgresql", fun _ => .postgreSQL ⟨none, none⟩)]

/-- Python `str.lower()`, character-wise (the registered identifiers are
ASCII, where `Char.toLower` agrees with Python's lowering). -/
def pyLower (s : String) : String := ⟨s.data.map Char.toLower⟩

/-- `get_adapter(database_type)`: dict lookup on the lower-cased identifier;
`raise ValueError(f"Unknown database type: {database_type}")` when absent
(class objects are always truthy, so `if not adapter_class` is exactly the
absence check); otherwise the constructor is called, performing no I/O. -/
def get_adapter (databaseType : String) : Except PyErr AdapterInstance :=
  match (adapters.find? (fun p => p.1 = pyLower databaseType)).map (fun p => p.2) with
  | some ctor => .ok (ctor ())
  | none => .error (.valueError ("Unknown database type: " ++ databaseType))

/-! ## `bulk_write` -/

/-- A pymongo bulk primitive as built by `MongoDBAdapter.bulk_write`:
`InsertOne(doc)`, `UpdateOne(filter, update)`, `DeleteOne(filter)`. -/
inductive MongoOp where
  | insertOne (document : Value)
  | updateOne (filter : Value) (update : Value)
  | deleteOne (filter : Value)

/-- Python subscription `v[k]`: a `KeyError` on a dict without the key and a
`TypeError` on a non-dict. -/
def subscript (v : Value) (k : String) : Except PyErr Value :=
  match v with
  | .vObj d =>
    match getKey k d with
    | some x => .ok x
    | none => .error (.raised "KeyError" k)
  | _ => .error (.raised "TypeError" "object is not subscriptable")

/-- One iteration of the translation loop in `bulk_write`: the
`insert_one` / `update_one` / `delete_one` keys are tried in that order
(`if`/`elif`), an op dict with none of them appends nothing, and an update
op's payload is subscripted for `'filter'` and `'update'` and its update is
wrapped in `{'$set': …}`. -/
def translateOp (op : Doc) : Except PyErr (Option MongoOp) :=
  match getKey "insert_one" op with
  | some d => .ok (some (.insertOne d))
  | none =>
    match getKey "update_one" op with
    | some u =>
      match subscript u "filter" with
      | .error e => .error e
      | .ok f =>
        match subscript u "update" with
        | .error e => .error e
        | .ok upd => .ok (some (.updateOne f (.vObj [("$set", upd)])))
    | none =>
      match getKey "delete_one" op with
      | some f => .ok (some (.deleteOne f))
      | none => .ok none

/-- The `mongo_ops` list built by the loop of `bulk_write`, in loop order;
the first exception aborts the loop. -/
def mongoOps : List Doc → Except PyErr (List MongoOp)
  | [] => .ok []
  | op :: rest =>
    match translateOp op with
    | .error e => .error e
    | .ok o =>
      match mongoOps rest with
      | .error e => .error e
      | .ok l => .ok (match o with | some m => m :: l | none => l)

/-- The result object of a native pymongo `bulk_write` call. -/
structure NativeBulkResult where
  inserted_count : Nat
  modified_count : Nat
  deleted_count : Nat

/-- The `{inserted, updated, deleted}` summary dict. -/
structure BulkResult where
  inserted : Nat
  updated : Nat
  deleted : Nat
deriving DecidableEq

/-- A run of `MongoDBAdapter.bulk_write`: the native bulk calls it issued,
in order, and the summary it returned. -/
structure BulkWriteRun where
  calls : List (List MongoOp)
  result : BulkResult

/-- `MongoDBAdapter.bulk_write`.  The backend is the abstract `native`
function from an issued batch to its result object.  When `mongo_ops` is
non-empty exactly one native call is made, on the whole translated list, and
its counts are the summary; when it is empty no call is made and the summary
is all zeros. -/
def bulk_write (native : List MongoOp → NativeBulkResult) (operations : List Doc) :
    Except PyErr BulkWriteRun :=
  match mongoOps operations with
  | .error e => .error e
  | .ok [] => .ok ⟨[], ⟨0, 0, 0⟩⟩
  | .ok (m :: l) =>
    let r := native (m :: l)
    .ok ⟨[m :: l], ⟨r.inserted_count, r.modified_count, r.deleted_count⟩⟩

/-- Variant discriminators on the native primitives. -/
def MongoOp.isInsert : MongoOp → Bool
  | .insertOne _ => true
  | _ => false

def MongoOp.isUpdate : MongoOp → Bool
  | .updateOne _ _ => true
  | _ => false

def MongoOp.isDelete : MongoOp → Bool
  | .deleteOne _ => true
  | _ => false

/-- Modelled from the spec (§4.2), for comparison with the code: the batch
partitioned by variant, order preserved within each partition, executed as
(up to) three native calls in the fixed order Insert → Update → Delete. -/
def bulkCallsSpec (ops : List MongoOp) : List (List MongoOp) :=
  [ops.filter MongoOp.isInsert, ops.filter MongoOp.isUpdate,
   ops.filter MongoOp.isDelete].filter (fun l => !l.isEmpty)

/-! ## `mask_field` -/

/-- The single-field `update_one` issued per masked record:
`update_one({'_id': doc['_id']}, {'$set': {field: masked_value}})`. -/
structure MaskUpdate where
  idVal : Value
  field : String
  newVal : Value

/-- Outcome of one loop iteration of `mask_field` on one document. -/
inductive MaskStep where
  | skip
  | masked (u : MaskUpdate)
  | fail (e : PyErr)

/-- The body of the `for doc in docs` loop of `mask_field`: the record is
processed only when the field is present AND its value is truthy
(`if field in doc and doc[field]`); `mask_fn` is applied first (its
exception propagates), then `doc['_id']` is read for the update filter
(a missing `_id` would raise `KeyError`). -/
def maskStep (field : String) (maskFn : Value → Except PyErr Value) (d : Doc) :
    MaskStep :=
  match getKey field d with
  | none => .skip
  | some v =>
    if v.truthy then
      match maskFn v with
      | .error e => .fail e
      | .ok mv =>
        match getKey "_id" d with
        | none => .fail (.raised "KeyError" "_id")
        | some idv => .masked ⟨idv, field, mv⟩
    else .skip

/-- Result of a `mask_field` run: the returned count or the propagated
exception (a Python exception carries no count — `masked_count` is a local
that is lost when the loop raises), together with the `update_one` calls
actually issued, in order. -/
structure MaskOutcome where
  result : Except PyErr Nat
  updates : List MaskUpdate

/-- The scan loop of `mask_field`, carrying the running `masked_count`. -/
def maskFieldRun (field : String) (maskFn : Value → Except PyErr Value) :
    List Doc → Nat → MaskOutcome
  | [], n => ⟨.ok n, []⟩
  | d :: rest, n =>
    match maskStep field maskFn d with
    | .skip => maskFieldRun field maskFn rest n
    | .fail e => ⟨.error e, []⟩
    | .masked u =>
      let o := maskFieldRun field maskFn rest (n + 1)
      ⟨o.result, u :: o.updates⟩

/-- `MongoDBAdapter.mask_field` over the collection's documents. -/
def mask_field (docs : List Doc) (field : String)
    (maskFn : Value → Except PyErr Value) : MaskOutcome :=
  maskFieldRun field maskFn docs 0

/-! ## `get_schema` -/

/-- A `FieldSchema` dataclass instance. -/
structure FieldSchema where
  name : String
  type : String
  nullable : Bool := true
  indexed : Bool := false
  unique : Bool := false
  reference : Option String := none
deriving DecidableEq

/-- A `DocumentSchema` dataclass instance; `fields` is the keyed mapping
built by `get_schema` (claims read it through `List.lookup`). -/
structure DocumentSchema where
  name : String
  fields : List (String × FieldSchema)
  primary_key : String := "_id"
deriving DecidableEq

/-- `find().limit(sample_size)`: pymongo's `limit(0)` means no limit. -/
def sampleDocs (sampleSize : Nat) (docs : List Doc) : List Doc :=
  if sampleSize = 0 then docs else docs.take sampleSize

/-- The `isinstance` ladder of `get_schema` classifying one value into a type
tag; `bool` is tested before `int` (Python's `bool` is an `int` subclass);
a value matching no branch (e.g. `None`) contributes no tag. -/
def typeTag : Value → Option String
  | .vBool _ => some "boolean"
  | .vInt _ => some "integer"
  | .vFloat _ => some "float"
  | .vStr _ => some "string"
  | .vObj _ => some "object"
  | .vArr _ => some "array"
  | .vObjectId _ => some "objectid"
  | .vNone => none

/-- The `types` set accumulated for one field over the sample, represented
by its distinct members (iteration order of the Python set is supplied
separately by a `setOrder` parameter). -/
def observedTypes (sample : List Doc) (f : String) : List String :=
  (sample.filterMap (fun d => (getKey f d).bind typeTag)).dedup

/-- `field_type = list(types)[0] if types else 'unknown'`, with `setOrder`
standing for the conversion of the Python set to a list (any order of the
distinct members). -/
def fieldTypeOf (setOrder : List String → List String) (sample : List Doc)
    (f : String) : String :=
  let types := observedTypes sample f
  if types.isEmpty then "unknown" else (setOrder types).headD "unknown"

/-- `nullable`: set when the field is missing from some sampled document. -/
def nullableOf (sample : List Doc) (f : String) : Bool :=
  sample.any (fun d => (getKey f d).isNone)

/-- The `all_field_names` set of `get_schema` minus the skipped `_id` key,
represented by its distinct members (iteration order of the name set only
affects dict insertion order, which the keyed lookup does not observe). -/
def fieldNames (sample : List Doc) : List String :=
  ((sample.map (fun d => d.map (fun p => p.1))).flatten).dedup.filter
    (fun f => f ≠ "_id")

/-- The `field_info` mapping of `get_schema`. -/
def getSchemaFields (setOrder : List String → List String) (sample : List Doc) :
    List (String × FieldSchema) :=
  (fieldNames sample).map
    (fun f => (f, { name := f, type := fieldTypeOf setOrder sample f,
                    nullable := nullableOf sample f }))

/-- `MongoDBAdapter.get_schema` over the collection's documents. -/
def get_schema (setOrder : List String → List String) (collection : String)
    (sampleSize : Nat) (docs : List Doc) : DocumentSchema :=
  let sample := sampleDocs sampleSize docs
  if sample.isEmpty then ⟨collection, [], "_id"⟩
  else ⟨collection, getSchemaFields setOrder sample, "_id"⟩

/-! ## Shared helper lemmas -/

/-- Looking a key up in a keyed map built by tagging each name with a value
computed from it. -/
theorem lookup_map_key (names : List String) (g : String → FieldSchema) (f : String) :
    (names.map (fun x => (x, g x))).lookup f =
      if f ∈ names then some (g f) else none := by
  induction names with
  | nil => simp
  | cons x xs ih =>
    by_cases hfx : f = x
    · subst hfx
      simp [List.lookup]
    · simp only [List.map_cons, List.lookup, beq_iff_eq, hfx, List.mem_cons, ih,
        false_or, if_false]
      split <;> simp_all

/-- Characterization of the keyed field map `get_schema` returns on a
non-empty sample. -/
theorem get_schema_fields_lookup (setOrder : List String → List String)
    (c : String) (n : Nat) (docs : List Doc) (f : String)
    (hne : (sampleDocs n docs).isEmpty = false) :
    (get_schema setOrder c n docs).fields.lookup f =
      if f ∈ fieldNames (sampleDocs n docs) then
        some ⟨f, fieldTypeOf setOrder (sampleDocs n docs) f,
              nullableOf (sampleDocs n docs) f, false, false, none⟩
      else none := by
  simp only [get_schema, hne, Bool.false_eq_true, if_false, getSchemaFields]
  exact lookup_map_key _ _ f

/-- Every tag `typeTag` can emit. -/
theorem typeTag_mem (v : Value) (t : String) (h : typeTag v = some t) :
    t ∈ ["boolean", "integer", "float", "string", "object", "array", "objectid"] := by
  cases v <;> simp [typeTag] at h <;> simp [← h]

/-- Every member of the observed-type set of a field is one of the seven
tags the classifier can emit; in particular it is never `"unknown"`. -/
theorem mem_observedTypes (sample : List Doc) (f : String) (t : String)
    (h : t ∈ observedTypes sample f) :
    t ∈ ["boolean", "integer", "float", "string", "object", "array", "objectid"] := by
  rw [observedTypes, List.mem_dedup, List.mem_filterMap] at h
  obtain ⟨d, _, hd⟩ := h
  obtain ⟨v, _, hv⟩ := Option.bind_eq_some.mp hd
  exact typeTag_mem v t hv

/-- A non-empty list all of whose members equal `a` dedups to `[a]`. -/
theorem dedup_all_eq (l : List String) (a : String) (hne : l ≠ [])
    (h : ∀ x ∈ l, x = a) : l.dedup = [a] := by
  induction l with
  | nil => exact absurd rfl hne
  | cons x xs ih =>
    have hx : x = a := h x (List.mem_cons_self x xs)
    subst hx
    cases xs with
    | nil => simp
    | cons y ys =>
      have hy : y = x := h y (by simp)
      rw [List.dedup_cons_of_mem (by simp [hy])]
      exact ih (by simp) (fun z hz => h z (List.mem_cons_of_mem x hz))

/-- A permutation-valid set ordering fixes singletons. -/
theorem setOrder_singleton (setOrder : List String → List String)
    (hso : ∀ l, List.Perm (setOrder l) l) (a : String) :
    setOrder [a] = [a] :=
  List.perm_singleton.mp (hso [a])

/-- The head of a valid ordering of a non-empty set is a member of the set. -/
theorem setOrder_headD_mem (setOrder : List String → List String)
    (hso : ∀ l, List.Perm (setOrder l) l) (l : List String) (hne : l ≠ []) :
    (setOrder l).headD "unknown" ∈ l := by
  have hlen : (setOrder l).length = l.length := (hso l).length_eq
  cases hord : setOrder l with
  | nil =>
    rw [hord] at hlen
    exact absurd (List.length_eq_zero.mp hlen.symm) hne
  | cons x xs =>
    have hx : x ∈ setOrder l := by rw [hord]; exact List.mem_cons_self x xs
    simpa using (hso l).mem_iff.mp hx

/-! ## C6: `health_check` never throws -/

/-- C6: for every adapter state (including the pre-connect all-`None` state)
and every behaviour of the backend ping, `health_check` returns a boolean
normally and never raises; any backend error raised by the liveness probe on
a connected adapter is caught and converted to the return value `false`; and
in the pre-connect state (where the raised exception is the `AttributeError`
on `None.client`) it likewise returns `false`. -/
theorem health_check_never_throws :
    (∀ (a : MongoDBAdapter) (ping : String → Except PyErr Unit),
       ∃ b : Bool, a.health_check ping = Except.ok b) ∧
    (∀ (a : MongoDBAdapter) (ping : String → Except PyErr Unit)
       (d : String) (e : PyErr), a.db = some d → ping d = Except.error e →
       a.health_check ping = Except.ok false) ∧
    (∀ ping : String → Except PyErr Unit,
       MongoDBAdapter.init.health_check ping = Except.ok false) := by
  refine ⟨fun a ping => ?_, fun a ping d e hdb hping => ?_, fun ping => rfl⟩
  · cases h : healthCheckBody a ping with
    | ok b => exact ⟨b, by simp [MongoDBAdapter.health_check, h]⟩
    | error e => exact ⟨false, by simp [MongoDBAdapter.health_check, h]⟩
  · have hbody : healthCheckBody a ping = Except.error e := by
      rw [healthCheckBody, hdb]
      simp [hping]
    simp [MongoDBAdapter.health_check, hbody]

/-- Instance of `health_check_never_throws`: a connected adapter whose
backend probe raises gets `false` back, not the exception. -/
theorem health_check_never_throws_instance :
    MongoDBAdapter.health_check
      ⟨some "mongodb://h/db1", some "db1", some "mongodb://h/db1"⟩
      (fun _ => Except.error (PyErr.raised "OperationFailure" "server down")) =
      Except.ok false :=
  health_check_never_throws.2.1
    ⟨some "mongodb://h/db1", some "db1", some "mongodb://h/db1"⟩
    (fun _ => Except.error (PyErr.raised "OperationFailure" "server down"))
    "db1" (PyErr.raised "OperationFailure" "server down") rfl rfl

/-! ## C7: `get_schema` on an empty collection -/

/-- C7: on a collection with zero records, for every sample size,
`get_schema` returns a `DocumentSchema` with an empty field mapping (and,
being a total function, raises nothing). -/
theorem get_schema_empty_collection :
    ∀ (setOrder : List String → List String) (c : String) (n : Nat),
      get_schema setOrder c n [] = ⟨c, [], "_id"⟩ := by
  intro setOrder c n
  simp [get_schema, sampleDocs]

/-! ## C4: `connect` on an already-connected adapter -/

/-- A concrete adapter state that is already connected. -/
def connectedAdapter : MongoDBAdapter :=
  ⟨some "mongodb://h/db1", some "db1", some "mongodb://h/db1"⟩

/-- C4 counterexample: calling `connect` on an already-connected adapter is
not rejected — it succeeds (returns normally, not with any error, let alone
an `InvalidStateError`, a class the module does not define) and silently
rebinds the client and database handles. -/
theorem connect_twice_counterexample :
    connectedAdapter.connect "mongodb://h/db2" =
      (⟨some "mongodb://h/db2", some "db2", some "mongodb://h/db2"⟩,
       Except.ok ()) := by
  rfl

/-- C4 amended: `connect` performs no connected-state check at all: from any
prior state, connecting with a string carrying a database name succeeds and
rebinds `client`, `db` and `connection_string`, the result being independent
of the prior state. -/
theorem connect_ignores_prior_state (a : MongoDBAdapter) (cs : String)
    (h : dbNameOf cs ≠ "") :
    a.connect cs = (⟨some cs, some (dbNameOf cs), some cs⟩, Except.ok ()) := by
  simp [MongoDBAdapter.connect, h]

/-- Instance of `connect_ignores_prior_state` on a connected adapter. -/
theorem connect_ignores_prior_state_instance :
    connectedAdapter.connect "mongodb://h/db2" =
      (⟨some "mongodb://h/db2", some (dbNameOf "mongodb://h/db2"),
        some "mongodb://h/db2"⟩, Except.ok ()) :=
  connect_ignores_prior_state connectedAdapter "mongodb://h/db2" (by decide)

/-! ## C5: the `get_adapter` factory -/

/-- C5 counterexample: for an unregistered identifier the factory raises a
plain `ValueError`, not an `UnsupportedBackendError` (no such class exists
in the module). -/
theorem get_adapter_error_class_counterexample :
    get_adapter "oracle" =
      Except.error (PyErr.valueError "Unknown database type: oracle") ∧
    PyErr.valueError "Unknown database type: oracle" ≠
      PyErr.raised "UnsupportedBackendError" "Unknown database type: oracle" :=
  ⟨rfl, by decide⟩

/-- C5 amended: identifiers whose lower-cased form is unregistered fail with
`ValueError` naming the original identifier; the registered identifiers
return a freshly constructed adapter with every field still unset (the
constructors perform no connection work — that is deferred to `connect`). -/
theorem get_adapter_registry (s : String) :
    (pyLower s ∉ ["mongodb", "postgresql"] →
       get_adapter s = Except.error (PyErr.valueError ("Unknown database type: " ++ s))) ∧
    (pyLower s = "mongodb" →
       get_adapter s = Except.ok (.mongoDB MongoDBAdapter.init)) ∧
    (pyLower s = "postgresql" →
       get_adapter s = Except.ok (.postgreSQL ⟨none, none⟩)) := by
  refine ⟨fun h => ?_, fun h => ?_, fun h => ?_⟩
  · have h1 : ¬ ("mongodb" = pyLower s) := fun hc => h (by simp [← hc])
    have h2 : ¬ ("postgresql" = pyLower s) := fun hc => h (by simp [← hc])
    simp [get_adapter, adapters, List.find?, h1, h2]
  · simp [get_adapter, adapters, List.find?, h, MongoDBAdapter.init]
  · simp [get_adapter, adapters, List.find?, h]

/-- Instance of `get_adapter_registry` at concrete identifiers. -/
theorem get_adapter_registry_instance :
    get_adapter "Oracle" =
      Except.error (PyErr.valueError "Unknown database type: Oracle") ∧
    get_adapter "MongoDB" = Except.ok (.mongoDB MongoDBAdapter.init) ∧
    get_adapter "PostgreSQL" = Except.ok (.postgreSQL ⟨none, none⟩) :=
  ⟨(get_adapter_registry "Oracle").1 (by decide),
   (get_adapter_registry "MongoDB").2.1 (by decide),
   (get_adapter_registry "PostgreSQL").2.2 (by decide)⟩

/-! ## C3: `mask_field` when `mask_fn` raises -/

/-- The `update_one` calls the masking loop issues while scanning a list of
documents on which no step fails. -/
def maskPreUpdates (field : String) (maskFn : Value → Except PyErr Value)
    (docs : List Doc) : List MaskUpdate :=
  docs.filterMap (fun d =>
    match maskStep field maskFn d with
    | .masked u => some u
    | _ => none)

/-- The scan loop up to the first failing document, with any running count. -/
theorem maskFieldRun_abort (field : String) (maskFn : Value → Except PyErr Value)
    (pre : List Doc) (d : Doc) (post : List Doc) (e : PyErr)
    (hpre : ∀ d' ∈ pre, ∀ e', maskStep field maskFn d' ≠ .fail e')
    (hd : maskStep field maskFn d = .fail e) :
    ∀ n, maskFieldRun field maskFn (pre ++ d :: post) n =
      ⟨.error e, maskPreUpdates field maskFn pre⟩ := by
  induction pre with
  | nil =>
    intro n
    simp only [List.nil_append, maskFieldRun, hd, maskPreUpdates, List.filterMap_nil]
  | cons p ps ih =>
    intro n
    have hihyp : ∀ d' ∈ ps, ∀ e', maskStep field maskFn d' ≠ .fail e' :=
      fun d' hd' => hpre d' (List.mem_cons_of_mem p hd')
    cases hp : maskStep field maskFn p with
    | skip =>
      simp only [List.cons_append, maskFieldRun, hp, List.append_eq]
      rw [ih hihyp n]
      simp only [maskPreUpdates, List.filterMap_cons, hp]
    | masked u =>
      simp only [List.cons_append, maskFieldRun, hp, List.append_eq]
      rw [ih hihyp (n + 1)]
      simp only [maskPreUpdates, List.filterMap_cons, hp]
    | fail e' => exact absurd hp (hpre p (List.mem_cons_self p ps) e')

/-- C3 amended: if `mask_fn` raises on the first qualifying document it
fails on, the exception propagates immediately and unwrapped (no
`ValidationError` class exists in the module to wrap it), the remaining scan
is aborted — the only updates issued are the ones for the documents before
the failure — and the partial count is discarded: the outcome is the bare
exception, which carries no count. -/
theorem mask_field_abort (field : String) (maskFn : Value → Except PyErr Value)
    (pre : List Doc) (d : Doc) (post : List Doc) (e : PyErr)
    (hpre : ∀ d' ∈ pre, ∀ e', maskStep field maskFn d' ≠ .fail e')
    (hd : maskStep field maskFn d = .fail e) :
    mask_field (pre ++ d :: post) field maskFn =
      ⟨.error e, maskPreUpdates field maskFn pre⟩ :=
  maskFieldRun_abort field maskFn pre d post e hpre hd 0

/-- Concrete documents and masking function for the C3 theorems: the
function succeeds on `"a"` and raises a `RuntimeError` on `"b"`. -/
def exMaskDoc1 : Doc := [("_id", .vInt 1), ("s", .vStr "a")]

def exMaskDoc2 : Doc := [("_id", .vInt 2), ("s", .vStr "b")]

def exMaskFn : Value → Except PyErr Value := fun v =>
  match v with
  | .vStr "b" => .error (.raised "RuntimeError" "boom")
  | _ => .ok (.vStr "X")

/-- C3 counterexample: with the failure on the second of two maskable
records, the outcome is exactly the masking function's own `RuntimeError`
(not a `ValidationError`), one record was masked before the failure, and
that count of 1 is not returned — the result is the bare error, not `ok 1`
or any value carrying a count. -/
theorem mask_field_error_counterexample :
    (mask_field [exMaskDoc1, exMaskDoc2] "s" exMaskFn).result =
      Except.error (PyErr.raised "RuntimeError" "boom") ∧
    (mask_field [exMaskDoc1, exMaskDoc2] "s" exMaskFn).updates.length = 1 ∧
    (mask_field [exMaskDoc1, exMaskDoc2] "s" exMaskFn).result ≠ Except.ok 1 ∧
    PyErr.raised "RuntimeError" "boom" ≠ PyErr.raised "ValidationError" "boom" := by
  refine ⟨rfl, rfl, fun h => ?_, by decide⟩
  rw [show (mask_field [exMaskDoc1, exMaskDoc2] "s" exMaskFn).result =
        Except.error (PyErr.raised "RuntimeError" "boom") from rfl] at h
  exact Except.noConfusion h

/-- Instance of `mask_field_abort` on the concrete two-document run. -/
theorem mask_field_abort_instance :
    mask_field ([exMaskDoc1] ++ exMaskDoc2 :: []) "s" exMaskFn =
      ⟨Except.error (PyErr.raised "RuntimeError" "boom"),
       maskPreUpdates "s" exMaskFn [exMaskDoc1]⟩ :=
  mask_field_abort "s" exMaskFn [exMaskDoc1] exMaskDoc2 []
    (PyErr.raised "RuntimeError" "boom")
    (fun d' hd' e' hc => by
      rw [List.mem_singleton.mp hd'] at hc
      rw [show maskStep "s" exMaskFn exMaskDoc1 =
            .masked ⟨.vInt 1, "s", .vStr "X"⟩ from rfl] at hc
      exact MaskStep.noConfusion hc)
    rfl

/-! ## C10: `mask_field` skips present-but-falsy values -/

/-- `del doc[field]`: the document with the target field removed. -/
def removeField (f : String) (d : Doc) : Doc := d.filter (fun p => p.1 ≠ f)

/-- Removing a field makes it absent. -/
theorem getKey_removeField (f : String) (d : Doc) :
    getKey f (removeField f d) = none := by
  induction d with
  | nil => rfl
  | cons p ps ih =>
    by_cases hp : p.1 = f
    · rw [show removeField f (p :: ps) = removeField f ps by
        simp [removeField, List.filter_cons, hp]]
      exact ih
    · rw [show removeField f (p :: ps) = p :: removeField f ps by
        simp [removeField, List.filter_cons, hp]]
      rw [show getKey f (p :: removeField f ps) = getKey f (removeField f ps) by
        simp [getKey, List.find?, hp]]
      exact ih

/-- A present-but-falsy field and an absent field take the same branch. -/
theorem maskStep_falsy_eq_removed (field : String)
    (maskFn : Value → Except PyErr Value) (d : Doc) (v : Value)
    (hp : getKey field d = some v) (hf : v.truthy = false) :
    maskStep field maskFn d = .skip ∧
    maskStep field maskFn (removeField field d) = .skip := by
  constructor
  · simp [maskStep, hp, hf]
  · simp [maskStep, getKey_removeField]

/-- C10: a record whose target field is present but falsy (`0`, `0.0`,
`False`, `""`, `[]`, `{}`) is treated by `mask_field` exactly like a record
missing the field: the whole run — returned count, propagated exception and
updates issued — is unchanged if the field is deleted from that record, so
the record is neither passed to `mask_fn` nor counted. -/
theorem mask_field_skips_falsy (field : String)
    (maskFn : Value → Except PyErr Value) (pre post : List Doc) (d : Doc)
    (v : Value) (hp : getKey field d = some v)
    (hfalsy : v ∈ [Value.vInt 0, Value.vFloat 0, Value.vBool false,
                   Value.vStr "", Value.vArr [], Value.vObj []]) :
    mask_field (pre ++ d :: post) field maskFn =
      mask_field (pre ++ removeField field d :: post) field maskFn := by
  have hf : v.truthy = false := by
    simp only [List.mem_cons, List.not_mem_nil, or_false] at hfalsy
    rcases hfalsy with h | h | h | h | h | h <;> subst h <;> rfl
  obtain ⟨hstep, hstep'⟩ := maskStep_falsy_eq_removed field maskFn d v hp hf
  have key : ∀ n, maskFieldRun field maskFn (pre ++ d :: post) n =
      maskFieldRun field maskFn (pre ++ removeField field d :: post) n := by
    induction pre with
    | nil =>
      intro n
      simp only [List.nil_append, maskFieldRun, hstep, hstep']
    | cons p ps ih =>
      intro n
      cases hp' : maskStep field maskFn p with
      | skip =>
        simp only [List.cons_append, maskFieldRun, hp', List.append_eq]
        rw [ih n]
      | masked u =>
        simp only [List.cons_append, maskFieldRun, hp', List.append_eq]
        rw [ih (n + 1)]
      | fail e => simp only [List.cons_append, maskFieldRun, hp']
  exact key 0

/-- Concrete masking function for the C10 instance. -/
def exMaskFnOk : Value → Except PyErr Value := fun _ => .ok (.vStr "masked")

/-- Instance of `mask_field_skips_falsy`: a record holding `0` in the target
field masks identically to the same record without the field. -/
theorem mask_field_skips_falsy_instance :
    mask_field ([] ++ [("_id", Value.vInt 7), ("x", Value.vInt 0)] :: []) "x" exMaskFnOk =
      mask_field ([] ++ removeField "x" [("_id", Value.vInt 7), ("x", Value.vInt 0)] :: [])
        "x" exMaskFnOk :=
  mask_field_skips_falsy "x" exMaskFnOk [] []
    [("_id", Value.vInt 7), ("x", Value.vInt 0)] (Value.vInt 0) rfl (by simp)

/-! ## C8: nullability and the single-type case of `get_schema` -/

/-- A filterMap whose function yields `some t` on every member is the
constant map to `t`. -/
theorem filterMap_all_some {α β : Type} (l : List α) (F : α → Option β) (t : β)
    (h : ∀ x ∈ l, F x = some t) : l.filterMap F = l.map (fun _ => t) := by
  induction l with
  | nil => rfl
  | cons x xs ih =>
    rw [List.filterMap_cons, h x (List.mem_cons_self x xs), List.map_cons,
      ih (fun y hy => h y (List.mem_cons_of_mem x hy))]

/-- C8: for every field in the inferred schema, `nullable` is true exactly
when the field is absent from at least one sampled record; and a field
present with an integer value in every sampled record is reported with
`type = "integer"` and `nullable = false`. -/
theorem get_schema_nullable_and_integer (setOrder : List String → List String)
    (hso : ∀ l, List.Perm (setOrder l) l) (c : String) (n : Nat)
    (docs : List Doc) (f : String) (fs : FieldSchema)
    (hlk : (get_schema setOrder c n docs).fields.lookup f = some fs) :
    (fs.nullable = true ↔ ∃ d ∈ sampleDocs n docs, getKey f d = none) ∧
    ((∀ d ∈ sampleDocs n docs, ∃ k : Int, getKey f d = some (Value.vInt k)) →
      fs.type = "integer" ∧ fs.nullable = false) := by
  cases hemp : (sampleDocs n docs).isEmpty with
  | true =>
    rw [get_schema] at hlk
    simp only [hemp, if_true] at hlk
    exact Option.noConfusion hlk
  | false =>
    rw [get_schema_fields_lookup setOrder c n docs f hemp] at hlk
    by_cases hmem : f ∈ fieldNames (sampleDocs n docs)
    · rw [if_pos hmem, Option.some.injEq] at hlk
      subst hlk
      refine ⟨?_, fun hall => ⟨?_, ?_⟩⟩
      · show nullableOf (sampleDocs n docs) f = true ↔ _
        simp [nullableOf, List.any_eq_true, Option.isNone_iff_eq_none]
      · show fieldTypeOf setOrder (sampleDocs n docs) f = "integer"
        have hne : sampleDocs n docs ≠ [] := by
          intro h
          rw [h] at hemp
          exact Bool.noConfusion hemp
        have hobs : observedTypes (sampleDocs n docs) f = ["integer"] := by
          rw [observedTypes, filterMap_all_some (sampleDocs n docs)
            (fun d => (getKey f d).bind typeTag) "integer"
            (fun d hd => by
              obtain ⟨k, hk⟩ := hall d hd
              show (getKey f d).bind typeTag = some "integer"
              rw [hk]
              rfl)]
          exact dedup_all_eq _ "integer" (by simp [hne])
            (fun x hx => (List.mem_map.mp hx).choose_spec.2.symm)
        rw [fieldTypeOf, hobs]
        simp [setOrder_singleton setOrder hso "integer"]
      · show nullableOf (sampleDocs n docs) f = false
        rw [nullableOf, List.any_eq_false]
        intro d hd
        obtain ⟨k, hk⟩ := hall d hd
        simp [hk]
    · rw [if_neg hmem] at hlk
      exact Option.noConfusion hlk

/-- Concrete one-document collection for the C8 instance. -/
def exDocsC8 : List Doc := [[("_id", Value.vInt 1), ("a", Value.vInt 5)]]

/-- Instance of `get_schema_nullable_and_integer` on a concrete sample whose
field `a` is an integer in every record. -/
theorem get_schema_nullable_and_integer_instance :
    ((⟨"a", "integer", false, false, false, none⟩ : FieldSchema).nullable = true ↔
       ∃ d ∈ sampleDocs 10 exDocsC8, getKey "a" d = none) ∧
    ((∀ d ∈ sampleDocs 10 exDocsC8, ∃ k : Int, getKey "a" d = some (Value.vInt k)) →
       (⟨"a", "integer", false, false, false, none⟩ : FieldSchema).type = "integer" ∧
       (⟨"a", "integer", false, false, false, none⟩ : FieldSchema).nullable = false) :=
  get_schema_nullable_and_integer id (fun l => List.Perm.refl l) "c" 10 exDocsC8
    "a" ⟨"a", "integer", false, false, false, none⟩ rfl

/-! ## C2: fields observed with multiple distinct types -/

/-- Concrete two-document collection whose field `a` is an integer in one
record and a string in the other. -/
def exDocsC2 : List Doc :=
  [[("_id", Value.vInt 1), ("a", Value.vInt 1)],
   [("_id", Value.vInt 2), ("a", Value.vStr "x")]]

/-- C2 counterexample: on a field observed with the two distinct tags
`integer` and `string`, `get_schema` does not report `unknown`: whichever of
the two possible set iteration orders Python produces, the reported type is
the first observed tag in that order (`integer` resp. `string`). -/
theorem get_schema_ambiguous_counterexample :
    (observedTypes (sampleDocs 10 exDocsC2) "a").length = 2 ∧
    (get_schema id "c" 10 exDocsC2).fields.lookup "a" =
      some ⟨"a", "integer", false, false, false, none⟩ ∧
    (get_schema List.reverse "c" 10 exDocsC2).fields.lookup "a" =
      some ⟨"a", "string", false, false, false, none⟩ ∧
    ("integer" : String) ≠ "unknown" ∧ ("string" : String) ≠ "unknown" :=
  ⟨rfl, rfl, rfl, by decide, by decide⟩

/-- C2 amended: when more than one distinct type tag is observed for a
field, `get_schema` reports one of the observed tags (which one depends on
the iteration order of the Python set), never `unknown`; `unknown` arises
only when no recognized tag was observed at all. -/
theorem get_schema_multi_type_not_unknown (setOrder : List String → List String)
    (hso : ∀ l, List.Perm (setOrder l) l) (c : String) (n : Nat)
    (docs : List Doc) (f : String) (fs : FieldSchema)
    (hlk : (get_schema setOrder c n docs).fields.lookup f = some fs)
    (hmulti : 2 ≤ (observedTypes (sampleDocs n docs) f).length) :
    fs.type ∈ observedTypes (sampleDocs n docs) f ∧ fs.type ≠ "unknown" := by
  cases hemp : (sampleDocs n docs).isEmpty with
  | true =>
    rw [get_schema] at hlk
    simp only [hemp, if_true] at hlk
    exact Option.noConfusion hlk
  | false =>
    rw [get_schema_fields_lookup setOrder c n docs f hemp] at hlk
    by_cases hmem : f ∈ fieldNames (sampleDocs n docs)
    · rw [if_pos hmem, Option.some.injEq] at hlk
      subst hlk
      have hne : observedTypes (sampleDocs n docs) f ≠ [] := by
        intro h
        rw [h] at hmulti
        exact absurd hmulti (by decide)
      have htype : fieldTypeOf setOrder (sampleDocs n docs) f ∈
          observedTypes (sampleDocs n docs) f := by
        rw [fieldTypeOf]
        simp only [List.isEmpty_iff, hne, if_false]
        exact setOrder_headD_mem setOrder hso _ hne
      refine ⟨htype, fun hu => ?_⟩
      have hu' : fieldTypeOf setOrder (sampleDocs n docs) f = "unknown" := hu
      rw [hu'] at htype
      exact absurd (mem_observedTypes (sampleDocs n docs) f _ htype) (by decide)
    · rw [if_neg hmem] at hlk
      exact Option.noConfusion hlk

/-- Instance of `get_schema_multi_type_not_unknown` on the concrete
ambiguous sample. -/
theorem get_schema_multi_type_not_unknown_instance :
    ("integer" : String) ∈ observedTypes (sampleDocs 10 exDocsC2) "a" ∧
    ("integer" : String) ≠ "unknown" :=
  get_schema_multi_type_not_unknown id (fun l => List.Perm.refl l) "c" 10
    exDocsC2 "a" ⟨"a", "integer", false, false, false, none⟩ rfl (by decide)

/-! ## C9: the set of type tags `get_schema` can report -/

/-- Concrete one-document collection whose field `r` holds an ObjectId. -/
def exDocsC9 : List Doc := [[("_id", Value.vInt 1), ("r", Value.vObjectId 5)]]

/-- C9 counterexample: a field sampled as an ObjectId is reported with type
`objectid`, which is not a member of the claimed tag set (the code never
emits `identifier`, the spec's name for it, and never emits `date`). -/
theorem get_schema_tag_set_counterexample :
    (get_schema id "c" 10 exDocsC9).fields.lookup "r" =
      some ⟨"r", "objectid", false, false, false, none⟩ ∧
    ("objectid" : String) ∉ ["string", "integer", "float", "boolean", "date",
      "object", "array", "identifier", "unknown"] :=
  ⟨rfl, by decide⟩

/-- C9 amended: every `FieldSchema` produced by `get_schema` has a type in
the set the code can actually emit: {string, integer, float, boolean,
object, array, objectid, unknown}. -/
theorem get_schema_type_in_emitted_tags (setOrder : List String → List String)
    (hso : ∀ l, List.Perm (setOrder l) l) (c : String) (n : Nat)
    (docs : List Doc) (f : String) (fs : FieldSchema)
    (hlk : (get_schema setOrder c n docs).fields.lookup f = some fs) :
    fs.type ∈ ["string", "integer", "float", "boolean", "object", "array",
      "objectid", "unknown"] := by
  cases hemp : (sampleDocs n docs).isEmpty with
  | true =>
    rw [get_schema] at hlk
    simp only [hemp, if_true] at hlk
    exact Option.noConfusion hlk
  | false =>
    rw [get_schema_fields_lookup setOrder c n docs f hemp] at hlk
    by_cases hmem : f ∈ fieldNames (sampleDocs n docs)
    · rw [if_pos hmem, Option.some.injEq] at hlk
      subst hlk
      show fieldTypeOf setOrder (sampleDocs n docs) f ∈ _
      by_cases hne : observedTypes (sampleDocs n docs) f = []
      · rw [fieldTypeOf]
        simp [hne]
      · have htype := setOrder_headD_mem setOrder hso _ hne
        have h7 := mem_observedTypes (sampleDocs n docs) f _ htype
        rw [fieldTypeOf]
        simp only [List.isEmpty_iff, hne, if_false]
        simp only [List.mem_cons, List.not_mem_nil, or_false] at h7 ⊢
        tauto
    · rw [if_neg hmem] at hlk
      exact Option.noConfusion hlk

/-- Instance of `get_schema_type_in_emitted_tags` on the ObjectId sample. -/
theorem get_schema_type_in_emitted_tags_instance :
    ("objectid" : String) ∈ ["string", "integer", "float", "boolean",
      "object", "array", "objectid", "unknown"] :=
  get_schema_type_in_emitted_tags id (fun l => List.Perm.refl l) "c" 10
    exDocsC9 "r" ⟨"r", "objectid", false, false, false, none⟩ rfl

/-! ## C1: `bulk_write` batching and ordering -/

/-- Dropping empty lists before flattening changes nothing. -/
theorem flatten_filter_nonempty {α : Type} (L : List (List α)) :
    (L.filter (fun l => !l.isEmpty)).flatten = L.flatten := by
  induction L with
  | nil => rfl
  | cons x xs ih =>
    cases x with
    | nil => simpa [List.filter_cons] using ih
    | cons y ys => simp [List.filter_cons, ih]

/-- The three variant partitions of a batch, concatenated, permute the
batch. -/
theorem tri_perm (l : List MongoOp) :
    List.Perm (l.filter MongoOp.isInsert ++
      (l.filter MongoOp.isUpdate ++ l.filter MongoOp.isDelete)) l := by
  induction l with
  | nil => simp
  | cons m ms ih =>
    cases m with
    | insertOne d =>
      simp only [List.filter_cons, MongoOp.isInsert, MongoOp.isUpdate,
        MongoOp.isDelete, if_true, Bool.false_eq_true, if_false, List.cons_append]
      exact ih.cons _
    | updateOne f u =>
      simp only [List.filter_cons, MongoOp.isInsert, MongoOp.isUpdate,
        MongoOp.isDelete, if_true, Bool.false_eq_true, if_false, List.cons_append]
      exact List.perm_middle.trans (ih.cons _)
    | deleteOne f =>
      simp only [List.filter_cons, MongoOp.isInsert, MongoOp.isUpdate,
        MongoOp.isDelete, if_true, Bool.false_eq_true, if_false, List.cons_append]
      refine ((List.Perm.append_left _ List.perm_middle).trans
        List.perm_middle).trans (ih.cons _)

/-- C1 amended: `bulk_write` does not partition the batch by variant: the
supported operations are translated in their original interleaved order and
submitted as a single native `bulk_write` call (hence relative order is
preserved within each variant as well), and the `{inserted, updated,
deleted}` summary is read off that single call's result object, not
accumulated per partition.  The spec's three per-variant partitions,
concatenated in the fixed Insert → Update → Delete order, are a permutation
of the single batch the code issues. -/
theorem bulk_write_single_interleaved_batch
    (native : List MongoOp → NativeBulkResult) (ops : List Doc)
    (l : List MongoOp) (h : mongoOps ops = .ok l) (hne : l ≠ []) :
    bulk_write native ops =
      Except.ok ⟨[l], ⟨(native l).inserted_count, (native l).modified_count,
        (native l).deleted_count⟩⟩ ∧
    List.Perm (bulkCallsSpec l).flatten l := by
  constructor
  · cases l with
    | nil => exact absurd rfl hne
    | cons m ms => simp [bulk_write, h]
  · rw [bulkCallsSpec, flatten_filter_nonempty]
    simpa using tri_perm l

/-- Concrete batch for the C1 theorems: an update followed by an insert. -/
def exOpU : Doc :=
  [("update_one", Value.vObj [("filter", Value.vObj []),
                              ("update", Value.vObj [("x", Value.vInt 1)])])]

def exOpI : Doc := [("insert_one", Value.vObj [("a", Value.vInt 2)])]

/-- Their translations to native primitives. -/
def exMU : MongoOp :=
  .updateOne (Value.vObj []) (Value.vObj [("$set", Value.vObj [("x", Value.vInt 1)])])

def exMI : MongoOp := .insertOne (Value.vObj [("a", Value.vInt 2)])

def exNative : List MongoOp → NativeBulkResult := fun _ => ⟨0, 0, 0⟩

/-- C1 counterexample: for the batch [update, insert] the code issues the
single interleaved native call `[update, insert]`, whereas partitioning by
variant and executing in the fixed order Insert → Update → Delete would
issue the two calls `[[insert], [update]]`; the two call sequences differ. -/
theorem bulk_write_order_counterexample :
    mongoOps [exOpU, exOpI] = Except.ok [exMU, exMI] ∧
    (bulk_write exNative [exOpU, exOpI]).map BulkWriteRun.calls =
      Except.ok [[exMU, exMI]] ∧
    bulkCallsSpec [exMU, exMI] = [[exMI], [exMU]] ∧
    [[exMU, exMI]] ≠ [[exMI], [exMU]] := by
  refine ⟨rfl, rfl, rfl, fun h => ?_⟩
  have hlen := congrArg List.length h
  simp at hlen

/-- Instance of `bulk_write_single_interleaved_batch` on the concrete
batch. -/
theorem bulk_write_single_interleaved_batch_instance :
    bulk_write exNative [exOpU, exOpI] =
      Except.ok ⟨[[exMU, exMI]],
        ⟨(exNative [exMU, exMI]).inserted_count,
         (exNative [exMU, exMI]).modified_count,
         (exNative [exMU, exMI]).deleted_count⟩⟩ ∧
    List.Perm (bulkCallsSpec [exMU, exMI]).flatten [exMU, exMI] :=
  bulk_write_single_interleaved_batch exNative [exOpU, exOpI] [exMU, exMI]
    rfl (fun h => List.noConfusion h)
